import Mathlib

/-!
Shallow embedding of the latexgogo LaTeX-expression parser (src/parser.go).

The parser consumes a stream of classified tokens, tracks a two-valued mode
(normal vs. math) and builds an AST by recursive descent.  The character-level
scanner (`texScanner`), the `token` and `ast` packages and the built-in macro
registry (`addBuiltinMacros`) are part of the repository but are not under
src/; following the spec's Token Source and Macro Registry contracts they are
modelled here: the token source is an explicit list of tokens carried in the
parser state, `peekNextRawChar` is the first character of the next token's
text (tokens tile the source text), and a macro behavior is modelled by the
ordered list of argument kinds it consumes.

General recursion of the Go code is realized by a fuel parameter; running out
of fuel yields the artificial error `PError.outOfFuel`, which is never reached
when the fuel exceeds a small multiple of the token count.
-/

namespace Latex

/-- Token kinds of the `token` package, as enumerated in the spec's data
model (Word, Number, Symbol, Macro, Comment, Space, Lbrace, Rbrace, Lbrack,
Rbrack, Lparen, Rparen, Other, EOF) plus the zero value `Invalid`. -/
inductive TokenKind where
  | word | number | symbol | macroTk | comment | space
  | lbrace | rbrace | lbrack | rbrack | lparen | rparen
  | other | eof | invalid
  deriving DecidableEq

/-- A lexical token (`token.Token`): kind, text and byte position. -/
structure Token where
  kind : TokenKind
  text : String
  pos : Nat
  deriving DecidableEq

/-- Parser mode (parser.go: `type state int`; `normalState`, `mathState`). -/
inductive State where
  | normalState
  | mathState
  deriving DecidableEq

/-- AST nodes (package `ast`), one constructor per variant of the spec's node
model.  `arg` and `optArg` are node variants because `Macro.Args` holds both;
`sup`/`sub` children are optional because Go's interface value may be nil. -/
inductive Node where
  | word (pos : Nat) (text : String)
  | literal (pos : Nat) (text : String)
  | symbol (pos : Nat) (text : String)
  | mathExpr (delim : String) (left right : Nat) (list : List Node)
  | sup (hatPos : Nat) (child : Option Node)
  | sub (underPos : Nat) (child : Option Node)
  | macroCall (name : String) (pos : Nat) (args : List Node)
  | arg (lbrace rbrace : Nat) (list : List Node)
  | optArg (lbrack rbrack : Nat) (list : List Node)
  | list (nodes : List Node)

/-- Errors produced by parser.go (Go `error` values, one constructor per
distinct error site).  `outOfFuel` is an artifact of the fuel-indexed
embedding, produced by no line of the source. -/
inductive PError where
  | outOfFuel
  | unknownMacro (name : String)
  | lbraceNotImplemented
  | otherNotImplemented (t : Token)
  | beginNotImplemented
  | unsupportedDelim (text : String)
  | expectedToken (want : Char) (got : String)
  | noMatchingDelim (t : Token)
  | impossibleKind (t : Token)
  deriving DecidableEq

/-- Modelled from the spec: kinds of macro arguments a registered behavior may
consume ("mandatory-argument parsing" and "optional-argument parsing"). -/
inductive ArgKind where
  | mandatory
  | optional
  deriving DecidableEq

/-- Modelled from the spec: a macro behavior (`macroParser`, whose concrete
implementations and `addBuiltinMacros` are not under src/).  Per the spec, "A
macro behavior may call mandatory- and optional-argument parsing any number of
times in any order appropriate to that macro's arity"; a behavior is modelled
by that ordered list of argument kinds, interpreted by `runMacroSpec`. -/
structure MacroSpec where
  arity : List ArgKind
  deriving DecidableEq

/-- Parser state: the remaining token stream and last-read token (modelling
`p.s`, the scanner, per the spec's Token Source contract), the current mode
(`p.state`) and the macro registry (`p.macros`, a Go map modelled as an
association list). -/
structure PState where
  toks : List Token
  tok : Token
  state : State
  macros : List (String × MacroSpec)
  deriving DecidableEq

/-- Scanner advance (`p.s.Next()` per the Token Source contract): pop the next
token and make it current, reporting whether one was produced. -/
def sNext (p : PState) : Bool × PState :=
  match p.toks with
  | [] => (false, p)
  | t :: r => (true, { p with toks := r, tok := t })

/-- parser.next (parser.go:62-67): advance; on success return the current
token, at end-of-input return a zero `Token` with kind EOF, leaving the
scanner's current token unchanged. -/
def pNext (p : PState) : Token × PState :=
  match p.toks with
  | [] => ({ kind := .eof, text := "", pos := 0 }, p)
  | t :: r => (t, { p with toks := r, tok := t })

/-- parser.expect (parser.go:69-75): advance, then compare the scanner's
current token text against the wanted character, returning an error on
mismatch.  Note that at end-of-input the current token is the stale previous
one, exactly as in the source. -/
def expect (v : Char) (p : PState) : Option PError × PState :=
  let p1 := (pNext p).2
  if p1.tok.text = String.mk [v] then (none, p1)
  else (some (.expectedToken v p1.tok.text), p1)

/-- Modelled from the spec: `peekNextRawChar` of the Token Source contract
(`p.s.sc.Peek()`; the scanner is not under src/).  Since tokens tile the
source text, the next raw character is the first character of the next
token's text; none at end-of-input. -/
def peekChar (p : PState) : Option Char :=
  match p.toks with
  | [] => none
  | t :: _ => t.text.toList.head?

/-- Result of the closing-delimiter determination in parser.parseMathExpr
(parser.go:136-150): a matching end text, the `\begin` error, or an
unsupported opening delimiter. -/
inductive EndRes where
  | okEnd (e : String)
  | beginErr
  | unsupported

/-- The `switch tok.Text` of parser.parseMathExpr (parser.go:136-150):
`$`→`$`, `\(`→`\)`, `\[`→`\]`; `\begin` and anything else are errors. -/
def mathEnd (t : String) : EndRes :=
  if t = "$" then .okEnd "$"
  else if t = "\\(" then .okEnd "\\)"
  else if t = "\\[" then .okEnd "\\]"
  else if t = "\\begin" then .beginErr
  else .unsupported

/-- The right-delimiter map of parser.parseMathLbrace (parser.go:337-343):
Lbrace→Rbrace, Lparen→Rparen, anything else yields the map's zero value
`Invalid`. -/
def rdelimOf (k : TokenKind) : TokenKind :=
  match k with
  | .lbrace => .rbrace
  | .lparen => .rparen
  | _ => .invalid

/-- parser.parseWord (parser.go:183-188). -/
def parseWord (tok : Token) : Node := .word tok.pos tok.text

/-- parser.parseNumber (parser.go:190-195). -/
def parseNumber (tok : Token) : Node := .literal tok.pos tok.text

/-- parser.parseSymbol (parser.go:330-335). -/
def parseSymbol (tok : Token) : Node := .symbol tok.pos tok.text

mutual

/-- parser.parseNode (parser.go:77-125): dispatch on token kind, then on the
token text for `$`/`^`/`_` symbols, and on the current mode for Lbrace and
Space.  Results mirror Go's two return values: an optional node and an
optional error. -/
def parseNode : Nat → Token → PState → (Option Node × Option PError) × PState
  | 0, _, p => ((none, some .outOfFuel), p)
  | n+1, tok, p =>
    match tok.kind with
    | .comment => ((none, none), p)
    | .macroTk => parseMacro n tok p
    | .word => ((some (parseWord tok), none), p)
    | .number => ((some (parseNumber tok), none), p)
    | .symbol =>
      if tok.text = "$" then parseMathExpr n tok p
      else if tok.text = "^" then parseSup n tok p
      else if tok.text = "_" then parseSub n tok p
      else ((some (parseSymbol tok), none), p)
    | .lbrace =>
      match p.state with
      | .mathState => parseMathLbrace n tok p
      | .normalState => ((none, some .lbraceNotImplemented), p)
    | .other => ((none, some (.otherNotImplemented tok)), p)
    | .space =>
      match p.state with
      | .mathState => ((none, none), p)
      | .normalState => ((some (parseSymbol tok), none), p)
    | .lparen | .rparen | .lbrack | .rbrack => ((some (parseSymbol tok), none), p)
    | _ => ((none, some (.impossibleKind tok)), p)

/-- parser.parseMathExpr (parser.go:127-171).  The Go `defer` restoring the
saved mode on every exit path is realized by this wrapper: the body runs under
`mathState` and the saved mode is written back unconditionally. -/
def parseMathExpr : Nat → Token → PState → (Option Node × Option PError) × PState
  | 0, _, p => ((none, some .outOfFuel), p)
  | n+1, tok, p =>
    let r := parseMathExprBody n tok { p with state := .mathState }
    (r.1, { r.2 with state := p.state })

/-- Body of parser.parseMathExpr after the mode switch: determine the closing
delimiter text, then loop; on loop completion return the `MathExpr` (its
`Right` is the loop's result, left 0 when input ended first) with a nil
error (parser.go:152-171). -/
def parseMathExprBody : Nat → Token → PState → (Option Node × Option PError) × PState
  | 0, _, p => ((none, some .outOfFuel), p)
  | n+1, tok, p =>
    match mathEnd tok.text with
    | .beginErr => ((none, some .beginNotImplemented), p)
    | .unsupported => ((none, some (.unsupportedDelim tok.text)), p)
    | .okEnd e =>
      match mathLoop n e [] p with
      | ((right, lst, none), p1) => ((some (.mathExpr tok.text tok.pos right lst), none), p1)
      | ((_, _, some err), p1) => ((none, some err), p1)

/-- The labeled loop of parser.parseMathExpr (parser.go:152-169): pull tokens
while any remain; a token whose TEXT equals the closing delimiter stops the
loop recording its position; other tokens are parsed recursively (errors
propagate, nil results are skipped, nodes are appended). -/
def mathLoop : Nat → String → List Node → PState → (Nat × List Node × Option PError) × PState
  | 0, _, acc, p => ((0, acc, some .outOfFuel), p)
  | n+1, e, acc, p =>
    match p.toks with
    | [] => ((0, acc, none), p)
    | t :: r =>
      let p1 : PState := { p with toks := r, tok := t }
      if t.text = e then ((t.pos, acc, none), p1)
      else
        match parseNode n t p1 with
        | ((_, some err), p2) => ((0, acc, some err), p2)
        | ((none, none), p2) => mathLoop n e acc p2
        | ((some node, none), p2) => mathLoop n e (acc ++ [node]) p2

/-- Shared shape of the four labeled loops that consume tokens until a given
closing token KIND is seen, recursively parsing every other token (errors
propagate, nil results skipped, nodes appended): the Rbrace loops of
parser.parseMacroArg (parser.go:197-221), parser.parseSup and parser.parseSub
(parser.go:258-328), the Rbrack loop of parser.parseOptMacroArg
(parser.go:223-253) and the rdelim loop of parser.parseMathLbrace
(parser.go:337-366).  Returns the stop token's position (0 when the input
ended first, matching the Go zero value), the collected children and an
optional child error. -/
def kindLoop : Nat → TokenKind → List Node → PState → (Nat × List Node × Option PError) × PState
  | 0, _, acc, p => ((0, acc, some .outOfFuel), p)
  | n+1, stop, acc, p =>
    match p.toks with
    | [] => ((0, acc, none), p)
    | t :: r =>
      let p1 : PState := { p with toks := r, tok := t }
      if t.kind = stop then ((t.pos, acc, none), p1)
      else
        match parseNode n t p1 with
        | ((_, some err), p2) => ((0, acc, some err), p2)
        | ((none, none), p2) => kindLoop n stop acc p2
        | ((some node, none), p2) => kindLoop n stop (acc ++ [node]) p2

/-- parser.parseMacro (parser.go:173-181): look the token text up in the
registry; unknown names fail with the "unknown macro" error; a registered
behavior is invoked with the engine and its node returned with a nil error. -/
def parseMacro : Nat → Token → PState → (Option Node × Option PError) × PState
  | 0, _, p => ((none, some .outOfFuel), p)
  | n+1, tok, p =>
    match p.macros.lookup tok.text with
    | none => ((none, some (.unknownMacro tok.text)), p)
    | some spec =>
      let r := runMacroSpec n spec tok p
      ((some r.1, none), r.2)

/-- Modelled from the spec: invocation of a registered macro behavior (the
`macroParser` implementations are not under src/).  The behavior builds a
`Macro` node for the token and consumes its argument groups in order via the
two argument-parsing primitives.  As in src's parseMacro, the behavior
interface returns only a node, so argument-parsing errors cannot propagate. -/
def runMacroSpec : Nat → MacroSpec → Token → PState → Node × PState
  | 0, _, tok, p => (.macroCall tok.text tok.pos [], p)
  | n+1, spec, tok, p => runArgs n spec.arity tok.text tok.pos [] p

/-- Modelled from the spec: fold of a behavior's argument kinds over the two
argument-parsing primitives, accumulating `Macro.Args`. -/
def runArgs : Nat → List ArgKind → String → Nat → List Node → PState → Node × PState
  | 0, _, name, pos, args, p => (.macroCall name pos args, p)
  | _+1, [], name, pos, args, p => (.macroCall name pos args, p)
  | n+1, .mandatory :: rest, name, pos, args, p =>
    let r := parseMacroArg n args p
    runArgs n rest name pos r.1.1 r.2
  | n+1, .optional :: rest, name, pos, args, p =>
    let r := parseOptMacroArg n args p
    runArgs n rest name pos r.1.1 r.2

/-- parser.parseMacroArg (parser.go:197-221): call expect('{') — its returned
error is DISCARDED, as in the source —, record the now-current token's
position as the Arg's Lbrace, loop until an Rbrace token (recording its
position), and append the Arg to the macro's argument list; only a child
parse error propagates (and then nothing is appended). -/
def parseMacroArg : Nat → List Node → PState → (List Node × Option PError) × PState
  | 0, args, p => ((args, some .outOfFuel), p)
  | n+1, args, p =>
    let p1 := (expect '{' p).2
    match kindLoop n .rbrace [] p1 with
    | ((rb, lst, none), p2) => ((args ++ [.arg p1.tok.pos rb lst], none), p2)
    | ((_, _, some e), p2) => ((args, some e), p2)

/-- parser.parseOptMacroArg (parser.go:223-253): peek the next raw character;
if it is not `[` return nil with the argument list untouched; otherwise
consume the `[`, loop until an Rbrack token and append the OptArg. -/
def parseOptMacroArg : Nat → List Node → PState → (List Node × Option PError) × PState
  | 0, args, p => ((args, some .outOfFuel), p)
  | n+1, args, p =>
    if peekChar p = some '[' then
      let p1 := (expect '[' p).2
      match kindLoop n .rbrack [] p1 with
      | ((rb, lst, none), p2) => ((args ++ [.optArg p1.tok.pos rb lst], none), p2)
      | ((_, _, some e), p2) => ((args, some e), p2)
    else ((args, none), p)

/-- parser.parseSup (parser.go:258-293): peek the next raw character; on `{`
consume it and collect nodes until Rbrace into a List child; otherwise parse
exactly the next token as the lone child (errors propagate, otherwise the Sup
is returned). -/
def parseSup : Nat → Token → PState → (Option Node × Option PError) × PState
  | 0, _, p => ((none, some .outOfFuel), p)
  | n+1, tok, p =>
    match peekChar p with
    | some '{' =>
      let p1 := (expect '{' p).2
      match kindLoop n .rbrace [] p1 with
      | ((_, lst, none), p2) => ((some (.sup tok.pos (some (.list lst))), none), p2)
      | ((_, _, some e), p2) => ((none, some e), p2)
    | _ =>
      let np := pNext p
      match parseNode n np.1 np.2 with
      | ((nd, none), p2) => ((some (.sup tok.pos nd), none), p2)
      | ((_, some e), p2) => ((none, some e), p2)

/-- parser.parseSub (parser.go:295-328).  The braced branch mirrors parseSup;
the non-braced branch is transcribed exactly as written in the source: it
assigns the parsed node and then executes `return nil, err` UNCONDITIONALLY,
so on success it returns a nil node and a nil error and the Sub is lost. -/
def parseSub : Nat → Token → PState → (Option Node × Option PError) × PState
  | 0, _, p => ((none, some .outOfFuel), p)
  | n+1, tok, p =>
    match peekChar p with
    | some '{' =>
      let p1 := (expect '{' p).2
      match kindLoop n .rbrace [] p1 with
      | ((_, lst, none), p2) => ((some (.sub tok.pos (some (.list lst))), none), p2)
      | ((_, _, some e), p2) => ((none, some e), p2)
    | _ =>
      let np := pNext p
      let r := parseNode n np.1 np.2
      ((none, r.1.2), r.2)

/-- parser.parseMathLbrace (parser.go:337-366): map the opening kind to its
closing kind (`Invalid` is an internal-consistency error), then loop until the
closing kind, returning the accumulated List. -/
def parseMathLbrace : Nat → Token → PState → (Option Node × Option PError) × PState
  | 0, _, p => ((none, some .outOfFuel), p)
  | n+1, tok, p =>
    let rdelim := rdelimOf tok.kind
    if rdelim = .invalid then ((none, some (.noMatchingDelim tok)), p)
    else
      match kindLoop n rdelim [] p with
      | ((_, lst, none), p2) => ((some (.list lst), none), p2)
      | ((_, _, some e), p2) => ((none, some e), p2)

/-- The loop of parser.parse (parser.go:45-60): pull tokens while any remain,
parse each; on error return a nil node TOGETHER with the error, discarding the
accumulated nodes; nil results are skipped; at end-of-input return the
accumulated List with a nil error. -/
def parseLoop : Nat → PState → List Node → (Option Node × Option PError) × PState
  | 0, p, _ => ((none, some .outOfFuel), p)
  | n+1, p, acc =>
    match p.toks with
    | [] => ((some (.list acc), none), p)
    | t :: r =>
      match parseNode n t { p with toks := r, tok := t } with
      | ((_, some e), p2) => ((none, some e), p2)
      | ((none, none), p2) => parseLoop n p2 acc
      | ((some node, none), p2) => parseLoop n p2 (acc ++ [node])

end

/-- parser.parse (parser.go:45-60): run the top-level loop with an empty
accumulator. -/
def parse : Nat → PState → (Option Node × Option PError) × PState
  | 0, p => ((none, some .outOfFuel), p)
  | n+1, p => parseLoop n p []

/-- A fresh parser state over a token stream, with normal mode, a zero current
token and an empty registry (parser.go:36-43, newParser; the scanner's initial
current token is the zero `Token`). -/
def mkP (ts : List Token) : PState :=
  { toks := ts, tok := { kind := .invalid, text := "", pos := 0 },
    state := .normalState, macros := [] }

/-- Modelled from the spec: ParseExpr (parser.go:17-20) builds a fresh scanner
over the input and a fresh parser with the built-in registry, then parses.
The scanner and `addBuiltinMacros` are not under src/, so the text→tokens map
and the built-in registry are abstracted as parameters. -/
def ParseExpr (tokenize : String → List Token) (builtin : List (String × MacroSpec))
    (fuel : Nat) (x : String) : (Option Node × Option PError) × PState :=
  parse fuel { mkP (tokenize x) with macros := builtin }

/-- Helper for C9: the top-level loop never pairs a node with an error — on
any error from parsing a token it returns a nil node, discarding the
accumulator. -/
theorem parseLoop_none_on_error :
    ∀ (n : Nat) (p : PState) (acc : List Node) (nd : Option Node) (e : PError) (q : PState),
      parseLoop n p acc = ((nd, some e), q) → nd = none := by
  intro n
  induction n with
  | zero =>
    intro p acc nd e q h
    exact (congrArg (fun x => x.1.1) h).symm
  | succ n ih =>
    intro p acc nd e q h
    simp only [parseLoop] at h
    split at h
    · exact Option.noConfusion (congrArg (fun x => x.1.2) h)
    · split at h
      · exact (congrArg (fun x => x.1.1) h).symm
      · exact ih _ _ _ _ _ h
      · exact ih _ _ _ _ _ h

/-- C1 counterexample: the claim says the input `"$x"` (math expression
reaching end-of-input before its closing `$`) fails with an
UnterminatedMathExpr error; in the code the loop of parseMathExpr simply ends
at end-of-input and parse returns a nil error. -/
theorem parseDollarX_no_error :
    (parse 20 (mkP [⟨.symbol, "$", 0⟩, ⟨.word, "x", 1⟩])).1.2 = none := rfl

/-- C1 amended: when end-of-input is reached before the closing delimiter the
parse does not fail: parseMathExpr returns the MathExpr as if complete, its
Right position left at the zero value, so `"$x"` parses to
MathExpr{Delim "$", Left 0, Right 0, children [Word "x"]} with no error. -/
theorem parseDollarX_returns_partial_mathExpr :
    (parse 20 (mkP [⟨.symbol, "$", 0⟩, ⟨.word, "x", 1⟩])).1 =
      (some (.list [.mathExpr "$" 0 0 [.word 1 "x"]]), none) := rfl

/-- C2: the claim says a subscript whose next raw character is not `{` returns
a Sub node holding the single parsed child; in the code parseSub's non-braced
branch executes `return nil, err` unconditionally, so on success the Sub node
is discarded: `"x_2"` parses to a List holding only Word "x" (the subscript
and its child vanish), and parseSub itself returns a nil node with a nil
error. -/
theorem parseSub_drops_node :
    (parse 20 (mkP [⟨.word, "x", 0⟩, ⟨.symbol, "_", 1⟩, ⟨.number, "2", 2⟩])).1 =
      (some (.list [.word 0 "x"]), none) ∧
    (parseSub 10 ⟨.symbol, "_", 1⟩
      { toks := [⟨.number, "2", 2⟩], tok := ⟨.symbol, "_", 1⟩,
        state := .normalState, macros := [] }).1 = (none, none) :=
  ⟨rfl, rfl⟩

/-- C3: the claim says mandatory-argument parsing fails with an ExpectedToken
error, surfaced to the caller, when the next token is not `{`; in the code
parseMacroArg discards the error computed by expect and proceeds: with next
token Word "x", expect itself reports the mismatch, yet parseMacroArg returns
a nil error and appends an Arg whose Lbrace is the mismatched token's
position. -/
theorem parseMacroArg_swallows_expect_error :
    (expect '{' (mkP [⟨.word, "x", 0⟩])).1 = some (.expectedToken '{' "x") ∧
    (parseMacroArg 5 [] (mkP [⟨.word, "x", 0⟩])).1 = ([.arg 0 0 []], none) :=
  ⟨rfl, rfl⟩

/-- C4: parsing the token stream of `"$x + y$"` yields a MathExpr with
delimiter `$`, Left 0, Right 6, whose children are exactly Word "x",
Symbol "+", Word "y" in order: the space tokens inside the math span produce
no child nodes. -/
theorem parseMathSpan_three_children :
    (parse 30 (mkP [⟨.symbol, "$", 0⟩, ⟨.word, "x", 1⟩, ⟨.space, " ", 2⟩,
        ⟨.symbol, "+", 3⟩, ⟨.space, " ", 4⟩, ⟨.word, "y", 5⟩, ⟨.symbol, "$", 6⟩])).1 =
      (some (.list [.mathExpr "$" 0 6 [.word 1 "x", .symbol 3 "+", .word 5 "y"]]), none) := rfl

/-- C5: a superscript whose next raw character is `{` consumes the brace and
collects the nodes up to the matching Rbrace into a List child: `"x^{23}"`
yields a Sup whose child is the two-element list [Literal "2", Literal "3"],
while `"x^2"` yields a Sup whose child is the single node Literal "2". -/
theorem parseSup_braced_vs_single :
    (parse 30 (mkP [⟨.word, "x", 0⟩, ⟨.symbol, "^", 1⟩, ⟨.lbrace, "\x7b", 2⟩,
        ⟨.number, "2", 3⟩, ⟨.number, "3", 4⟩, ⟨.rbrace, "\x7d", 5⟩])).1 =
      (some (.list [.word 0 "x",
        .sup 1 (some (.list [.literal 3 "2", .literal 4 "3"]))]), none) ∧
    (parse 30 (mkP [⟨.word, "x", 0⟩, ⟨.symbol, "^", 1⟩, ⟨.number, "2", 2⟩])).1 =
      (some (.list [.word 0 "x", .sup 1 (some (.literal 2 "2"))]), none) :=
  ⟨rfl, rfl⟩

/-- C6: a Macro token whose name is absent from the registry fails with the
unknown-macro error naming the offending macro, and for a registered name the
registered behavior is invoked and its node returned with a nil error. -/
theorem parseMacro_dispatch (n : Nat) (tok : Token) (p : PState) :
    (p.macros.lookup tok.text = none →
      parseMacro (n+1) tok p = ((none, some (.unknownMacro tok.text)), p)) ∧
    (∀ spec, p.macros.lookup tok.text = some spec →
      parseMacro (n+1) tok p =
        ((some (runMacroSpec n spec tok p).1, none), (runMacroSpec n spec tok p).2)) := by
  constructor
  · intro h
    simp only [parseMacro, h]
  · intro spec h
    simp only [parseMacro, h]

/-- C6 witness: with an empty registry, `\unknownmacro` fails with the
unknown-macro error naming it; with `\foo` registered (zero arguments), the
behavior is invoked. -/
theorem parseMacro_dispatch_witness :
    parseMacro 4 ⟨.macroTk, "\\unknownmacro", 0⟩ (mkP []) =
      ((none, some (.unknownMacro "\\unknownmacro")), mkP []) ∧
    parseMacro 4 ⟨.macroTk, "\\foo", 0⟩ { mkP [] with macros := [("\\foo", ⟨[]⟩)] } =
      ((some (runMacroSpec 3 ⟨[]⟩ ⟨.macroTk, "\\foo", 0⟩
          { mkP [] with macros := [("\\foo", ⟨[]⟩)] }).1, none),
        (runMacroSpec 3 ⟨[]⟩ ⟨.macroTk, "\\foo", 0⟩
          { mkP [] with macros := [("\\foo", ⟨[]⟩)] }).2) :=
  ⟨(parseMacro_dispatch 3 ⟨.macroTk, "\\unknownmacro", 0⟩ (mkP [])).1 rfl,
   (parseMacro_dispatch 3 ⟨.macroTk, "\\foo", 0⟩
      { mkP [] with macros := [("\\foo", ⟨[]⟩)] }).2 ⟨[]⟩ rfl⟩

/-- C7: parseMathExpr preserves the parser's mode as a stack discipline: on
every exit path — normal completion, unsupported-delimiter or `\begin` error,
any error raised while parsing children, even fuel exhaustion — the mode held
on entry is restored, so the returned state's mode equals the input's. -/
theorem parseMathExpr_restores_state (fuel : Nat) (tok : Token) (p : PState) :
    ((parseMathExpr fuel tok p).2).state = p.state := by
  cases fuel <;> rfl

/-- C8: optional-argument parsing is genuinely optional: when the next raw
character is not `[` it returns with a nil error, the argument list and the
whole state untouched; when it is `[` and the call returns without error, an
OptArg (with its recorded open and close positions) has been appended to the
argument list. -/
theorem parseOptMacroArg_spec (n : Nat) (args : List Node) (p : PState) :
    (peekChar p ≠ some '[' → parseOptMacroArg (n+1) args p = ((args, none), p)) ∧
    (∀ res q, peekChar p = some '[' →
      parseOptMacroArg (n+1) args p = ((res, none), q) →
      ∃ lb rb lst, res = args ++ [Node.optArg lb rb lst]) := by
  constructor
  · intro h
    simp only [parseOptMacroArg, if_neg h]
  · intro res q hpk heq
    simp only [parseOptMacroArg, if_pos hpk] at heq
    split at heq
    · exact ⟨_, _, _, (congrArg (fun x => x.1.1) heq).symm⟩
    · exact Option.noConfusion (congrArg (fun x => x.1.2) heq)

/-- C8 witness: before a Word token (next raw character `w`) the optional
argument is simply absent; before `[opt-less] ]` an OptArg is appended. -/
theorem parseOptMacroArg_spec_witness :
    parseOptMacroArg 3 [] (mkP [⟨.word, "w", 0⟩]) = (([], none), mkP [⟨.word, "w", 0⟩]) ∧
    (∃ lb rb lst, [Node.optArg 0 1 []] = [] ++ [Node.optArg lb rb lst]) :=
  ⟨(parseOptMacroArg_spec 2 [] (mkP [⟨.word, "w", 0⟩])).1 (by decide),
   (parseOptMacroArg_spec 5 [] (mkP [⟨.lbrack, "[", 0⟩, ⟨.rbrack, "]", 1⟩])).2
     [Node.optArg 0 1 []]
     { toks := [], tok := ⟨.rbrack, "]", 1⟩, state := .normalState, macros := [] }
     (by decide) rfl⟩

/-- C9: when the top-level parse encounters an error from parsing any token it
returns a nil node together with the error: partial top-level results already
accumulated are discarded, never returned alongside the error. -/
theorem parse_discards_partial (fuel : Nat) (p : PState) (nd : Option Node)
    (e : PError) (q : PState)
    (h : parse fuel p = ((nd, some e), q)) : nd = none := by
  cases fuel with
  | zero => exact (congrArg (fun x => x.1.1) h).symm
  | succ n => exact parseLoop_none_on_error n p [] nd e q h

/-- C9 witness: on `Word "a"` followed by an unknown macro, the parse has
already accumulated the Word node, yet returns a nil node with the
unknown-macro error. -/
theorem parse_discards_partial_witness :
    parse 10 (mkP [⟨.word, "a", 0⟩, ⟨.macroTk, "\\unknownmacro", 1⟩]) =
      ((none, some (.unknownMacro "\\unknownmacro")),
        { toks := [], tok := ⟨.macroTk, "\\unknownmacro", 1⟩,
          state := .normalState, macros := [] }) ∧
    (none : Option Node) = none :=
  ⟨rfl,
   parse_discards_partial 10 (mkP [⟨.word, "a", 0⟩, ⟨.macroTk, "\\unknownmacro", 1⟩])
     none (.unknownMacro "\\unknownmacro")
     { toks := [], tok := ⟨.macroTk, "\\unknownmacro", 1⟩,
       state := .normalState, macros := [] } rfl⟩

/-- C10: parsing is deterministic: ParseExpr is a pure function of the input
text (and the tokenization and built-in registry), so two runs on the same
input produce the same result node and the same error. -/
theorem ParseExpr_deterministic (tokenize : String → List Token)
    (builtin : List (String × MacroSpec)) (fuel : Nat) (x y : String)
    (h : x = y) :
    ParseExpr tokenize builtin fuel x = ParseExpr tokenize builtin fuel y := by
  rw [h]

/-- C10 witness: two runs on the literal input "a" agree. -/
theorem ParseExpr_deterministic_witness :
    ParseExpr (fun _ => []) [] 1 "a" = ParseExpr (fun _ => []) [] 1 "a" :=
  ParseExpr_deterministic (fun _ => []) [] 1 "a" "a" rfl

end Latex
